import Mathlib

/-!
Verification development for the SchematicWebViewer rendering pipeline
(`src/renderer/renderer.ts` and `src/resource/resourceLoader.ts`).

The TypeScript source is shallowly embedded: JavaScript `Map`s become
association lists, the asynchronous resolution pipeline becomes explicit
state passing, and external collaborators (the model loader, the block
state fetcher, the invisible / non-occluding block sets) become function
parameters.  Numeric mesh positions are modelled over `Rat`: every value
occurring in the placement formulas (`-dim / 2 + 0.5 + coord`) is exactly
representable, so rational arithmetic coincides with the source's
floating-point arithmetic on these inputs.
-/

namespace SchematicViewer

/-- A block: a type identifier plus a property-name/value mapping.
JavaScript objects enumerate string keys in insertion order, so the
property mapping is embedded as an insertion-ordered association list. -/
structure Block where
  type : String
  properties : List (String × String)
deriving DecidableEq, Repr

/-- Embedding of `JSON.stringify` of a string-keyed, string-valued JavaScript object:
serializes the key/value pairs in insertion order. -/
def jsonStringifyProps (ps : List (String × String)) : String :=
  "\x7b" ++ String.intercalate ","
      (ps.map (fun kv => "\"" ++ kv.1 ++ "\":\"" ++ kv.2 ++ "\"")) ++ "\x7d"

/-- Embedding of `hashBlockForMap` (renderer.ts:132-134):
`` `${block.type}:${JSON.stringify(block.properties)}` ``. -/
def hashBlockForMap (block : Block) : String :=
  block.type ++ ":" ++ jsonStringifyProps block.properties

/-- Resolved model data for a block type; the claims only inspect the model
list's emptiness, so the variant payload is abstracted to an index. -/
structure BlockModelData where
  models : List Nat
deriving DecidableEq, Repr

/-- The resolver lookup cache `Map<string, BlockModelData>` as an
association list keyed by `hashBlockForMap` strings.  `Map.get`: first
(unique) matching entry. -/
def getEntry (m : List (String × BlockModelData)) (k : String) :
    Option BlockModelData :=
  (m.find? (fun kv => kv.1 == k)).map (fun kv => kv.2)

/-- Map `set` semantics: replace the value in place when the key is present,
append otherwise. -/
def setEntry (m : List (String × BlockModelData)) (k : String)
    (v : BlockModelData) : List (String × BlockModelData) :=
  match m with
  | [] => [(k, v)]
  | kv :: rest =>
      if kv.1 = k then (k, v) :: rest else kv :: setEntry rest k v

/-- Embedding of `updateBlockModelLookup` (renderer.ts:103-130), with the external
collaborators as parameters: `inv` is `INVISIBLE_BLOCKS.has`, and `resolve`
fuses `loadBlockStateDefinition` + `modelLoader.getBlockModelData` (one
archive/resolution operation per call).  Returns the updated cache together
with the number of resolution operations performed, so cache-hit behaviour
is observable.  The source guards with `if (blockModelLookup.get(...))`
(truthiness); every stored value is an object, hence truthy, so the guard
is `get ≠ undefined`, i.e. `getEntry = some _` here.  A resolution with an
empty `models` list is skipped without inserting anything. -/
def updateBlockModelLookup (inv : String → Bool)
    (resolve : Block → BlockModelData) (blocks : List Block)
    (lookup : List (String × BlockModelData)) :
    List (String × BlockModelData) × Nat :=
  match blocks with
  | [] => (lookup, 0)
  | b :: rest =>
      if inv b.type then
        updateBlockModelLookup inv resolve rest lookup
      else
        match getEntry lookup (hashBlockForMap b) with
        | some _ => updateBlockModelLookup inv resolve rest lookup
        | none =>
            let md := resolve b
            if md.models.length = 0 then
              let p := updateBlockModelLookup inv resolve rest lookup
              (p.1, p.2 + 1)
            else
              let p := updateBlockModelLookup inv resolve rest
                (setEntry lookup (hashBlockForMap b) md)
              (p.1, p.2 + 1)

/-- An integer voxel position. -/
structure Pos where
  x : Int
  y : Int
  z : Int
deriving DecidableEq, Repr

/-- Componentwise addition of a position and a face offset. -/
def Pos.add (p q : Pos) : Pos :=
  ⟨p.x + q.x, p.y + q.y, p.z + q.z⟩

/-- A loaded schematic as consumed by the renderer: dimensions, the
palette of distinct block types, the voxel iteration order, and random
access `getBlock` (the schematicjs iterator yields the in-bounds
positions; `getBlock` returns `none` for empty voxels). -/
structure Structure where
  width : Nat
  height : Nat
  length : Nat
  blockTypes : List Block
  positions : List Pos
  getBlock : Pos → Option Block

/-- Whether a position lies inside the declared grid bounds. -/
def inBounds (s : Structure) (p : Pos) : Bool :=
  decide (0 ≤ p.x) && decide (p.x < (s.width : Int)) &&
  decide (0 ≤ p.y) && decide (p.y < (s.height : Int)) &&
  decide (0 ≤ p.z) && decide (p.z < (s.length : Int))

/-- Modelled from the spec: the six axis-aligned faces examined per voxel
(`POSSIBLE_FACES` lives in renderer/model/types.ts, which is not under
src/; §4.3 names up, down, north, south, east, west). -/
inductive Face where
  | up
  | down
  | north
  | south
  | east
  | west
deriving DecidableEq, Repr

/-- Modelled from the spec: the face iteration list of §4.3. -/
def POSSIBLE_FACES : List Face :=
  [Face.up, Face.down, Face.north, Face.south, Face.east, Face.west]

/-- Modelled from the spec: `faceToFacingVector` (renderer/utils.ts is not
under src/); the unit offset from a voxel to the neighbor across the given
face (§4.3: the 6 axis-aligned face neighbors). -/
def faceToFacingVector : Face → Pos
  | Face.up => ⟨0, 1, 0⟩
  | Face.down => ⟨0, -1, 0⟩
  | Face.north => ⟨0, 0, -1⟩
  | Face.south => ⟨0, 0, 1⟩
  | Face.east => ⟨1, 0, 0⟩
  | Face.west => ⟨-1, 0, 0⟩

/-- A renderable geometry fragment: an identity, a world position over
`Rat`, and whether its world matrix has been frozen. -/
structure Mesh where
  id : Nat
  x : Rat
  y : Rat
  z : Rat
  frozen : Bool
deriving DecidableEq, Repr

/-- One face test of the culling loop (renderer.ts:164-173):
`!offBlock || NON_OCCLUDING_BLOCKS.has(offBlock.type)`, with `nonOcc`
standing for `NON_OCCLUDING_BLOCKS.has`. -/
def exposingFace (s : Structure) (nonOcc : String → Bool) (p : Pos)
    (f : Face) : Bool :=
  match s.getBlock (p.add (faceToFacingVector f)) with
  | none => true
  | some offBlock => nonOcc offBlock.type

/-- The `anyVisible` loop over `POSSIBLE_FACES` with its `break`
(renderer.ts:162-174), instrumented with the number of neighbor queries
performed: returns (whether any face was exposing, faces examined). -/
def visibilityScan (s : Structure) (nonOcc : String → Bool) (p : Pos) :
    List Face → Bool × Nat
  | [] => (false, 0)
  | f :: fs =>
      if exposingFace s nonOcc p f then (true, 1)
      else
        let r := visibilityScan s nonOcc p fs
        (r.1, r.2 + 1)

/-- The `anyVisible` flag after the face loop. -/
def anyVisible (s : Structure) (nonOcc : String → Bool) (p : Pos) : Bool :=
  (visibilityScan s nonOcc p POSSIBLE_FACES).1

/-- Fragment placement (renderer.ts:185-188): each mesh position is
incremented by the per-axis translation plus the voxel coordinate, then
the world matrix is frozen. -/
def placeMesh (xT yT zT : Rat) (p : Pos) (m : Mesh) : Mesh :=
  { m with
    x := m.x + (xT + p.x),
    y := m.y + (yT + p.y),
    z := m.z + (zT + p.z),
    frozen := true }

/-- The per-voxel body of `computeSchematicMesh`'s loop
(renderer.ts:150-191): skip empty or invisible voxels, skip voxels with no
lookup-cache entry, cull fully-occluded voxels, otherwise materialize the
model's meshes (`getModel` abstracts `modelLoader.getModel`; a `none`
entry is a falsy mesh skipped by `if (!mesh) continue`). -/
def voxelMeshes (inv nonOcc : String → Bool)
    (lookup : List (String × BlockModelData))
    (getModel : Block → List (Option Mesh)) (s : Structure)
    (xT yT zT : Rat) (p : Pos) : List Mesh :=
  match s.getBlock p with
  | none => []
  | some block =>
      if inv block.type then []
      else
        match getEntry lookup (hashBlockForMap block) with
        | none => []
        | some _ =>
            if anyVisible s nonOcc p then
              ((getModel block).filterMap id).map (placeMesh xT yT zT p)
            else []

/-- Embedding of `computeSchematicMesh` (renderer.ts:136-193): translations
`-world{Width,Height,Length} / 2 + 0.5` computed once, then every voxel
processed in iteration order; the resulting mesh additions in order. -/
def computeSchematicMesh (inv nonOcc : String → Bool)
    (lookup : List (String × BlockModelData))
    (getModel : Block → List (Option Mesh)) (s : Structure) : List Mesh :=
  (s.positions.map (voxelMeshes inv nonOcc lookup getModel s
    (-(s.width : Rat) / 2 + 1/2) (-(s.height : Rat) / 2 + 1/2)
    (-(s.length : Rat) / 2 + 1/2))).flatten

/-- The spec's notion of an exposing face: neighbor out of bounds, empty,
or holding a non-occluding block type. -/
def exposingSpec (s : Structure) (nonOcc : String → Bool) (p : Pos)
    (f : Face) : Prop :=
  inBounds s (p.add (faceToFacingVector f)) = false ∨
    s.getBlock (p.add (faceToFacingVector f)) = none ∨
    ∃ ob, s.getBlock (p.add (faceToFacingVector f)) = some ob ∧
      nonOcc ob.type = true

/-- A concrete block used by the concrete witnesses. -/
def stoneBlock : Block := ⟨"minecraft:stone", []⟩

/-- A 1×1×1 structure holding one stone block at the origin. -/
def oneVoxelStructure : Structure where
  width := 1
  height := 1
  length := 1
  blockTypes := [stoneBlock]
  positions := [⟨0, 0, 0⟩]
  getBlock := fun q => if q = ⟨0, 0, 0⟩ then some stoneBlock else none

/-- A lookup cache resolving the stone block to one model variant. -/
def stoneLookup : List (String × BlockModelData) :=
  [(hashBlockForMap stoneBlock, ⟨[0]⟩)]

/-- A model loader returning one mesh at the origin plus one falsy entry. -/
def stoneModel : Block → List (Option Mesh) :=
  fun _ => [some ⟨0, 0, 0, 0, false⟩, none]

/-- A 2×1×1 structure with stone blocks at (0,0,0) and (1,0,0). -/
def rowStructure : Structure where
  width := 2
  height := 1
  length := 1
  blockTypes := [stoneBlock]
  positions := [⟨0, 0, 0⟩, ⟨1, 0, 0⟩]
  getBlock := fun q =>
    if q = ⟨0, 0, 0⟩ ∨ q = ⟨1, 0, 0⟩ then some stoneBlock else none

/-- An archive (one jar/zip of the ordered list): named entries with text
content.  `zipFile.file('assets/minecraft/' + name)` is modelled as
association-list lookup on the relative name; the blob and string views
read the same entry. -/
structure Archive where
  files : List (String × String)
deriving DecidableEq, Repr

/-- Entry lookup in one archive. -/
def zipFileEntry (a : Archive) (name : String) : Option String :=
  (a.files.find? (fun kv => kv.1 == name)).map (fun kv => kv.2)

/-- The archive scan of `getResourceBlob` (resourceLoader.ts:45-56): the
`data` variable holds the last `zipFile.file(...)?.async('blob')` result;
a Blob object is always truthy, so `if (data) break` fires at the first
archive defining the path. -/
def scanBlob (zips : List Archive) (name : String)
    (data : Option String) : Option String :=
  match zips with
  | [] => data
  | z :: rest =>
      let d := zipFileEntry z name
      if d.isSome then d else scanBlob rest name d

/-- JavaScript truthiness of `data : string | undefined`: false for
`undefined` and for the empty string. -/
def truthyText : Option String → Bool
  | none => false
  | some s => !(s == "")

/-- The archive scan of `getResourceString` (resourceLoader.ts:77-85):
identical loop, but `data` is a string, so `if (data) break` skips an
archive whose entry decodes to the empty string. -/
def scanText (zips : List Archive) (name : String)
    (data : Option String) : Option String :=
  match zips with
  | [] => data
  | z :: rest =>
      let d := zipFileEntry z name
      if truthyText d then d else scanText rest name d

/-- Embedding of `getResourceBlob` (resourceLoader.ts:37-70) on the
archive-list branch: memoized under `name` (absence memoized as an entry
holding `undefined`); `URL.createObjectURL` is modelled as the identity on
the blob's content. -/
def getResourceBlob (zips : List Archive)
    (blobCache : List (String × Option String)) (name : String) :
    Option String × List (String × Option String) :=
  match blobCache.find? (fun kv => kv.1 == name) with
  | some kv => (kv.2, blobCache)
  | none =>
      match scanBlob zips name none with
      | none => (none, blobCache ++ [(name, none)])
      | some b => (some b, blobCache ++ [(name, some b)])

/-- Embedding of `getResourceString` (resourceLoader.ts:72-94) on the
archive-list branch: the scan result (possibly `undefined`) is memoized
under `name` and returned. -/
def getResourceString (zips : List Archive)
    (stringCache : List (String × Option String)) (name : String) :
    Option String × List (String × Option String) :=
  match stringCache.find? (fun kv => kv.1 == name) with
  | some kv => (kv.2, stringCache)
  | none =>
      let data := scanText zips name none
      (data, stringCache ++ [(name, data)])

/-- The spec's precedence policy: the entry of the first archive in list
order that defines the path. -/
def firstHit (zips : List Archive) (name : String) : Option String :=
  match zips with
  | [] => none
  | z :: rest =>
      match zipFileEntry z name with
      | some e => some e
      | none => firstHit rest name

/-- A mesh as held by the Babylon scene: an instanced geometry fragment
(modelled from the spec: §4.2's materialize returns lightweight instanced
references, so structure fragments are `InstancedMesh`es), the ground grid
(the mesh named 'ground'), or another non-instanced mesh (arrow, bars,
...). -/
inductive SceneMesh where
  | instanced (m : Mesh)
  | ground (gh : Rat)
  | other (id : Nat)
deriving DecidableEq, Repr

/-- Whether a scene mesh is an `InstancedMesh`. -/
def SceneMesh.isInstanced : SceneMesh → Bool
  | SceneMesh.instanced _ => true
  | _ => false

/-- Whether a scene mesh is the mesh named 'ground'. -/
def SceneMesh.isGround : SceneMesh → Bool
  | SceneMesh.ground _ => true
  | _ => false

/-- The Babylon scene: the live mesh list, the record of meshes disposed
so far, and a frame counter incremented by `scene.render()`. -/
structure Scene where
  meshes : List SceneMesh
  disposedMeshes : List SceneMesh
  rendered : Nat
deriving DecidableEq, Repr

/-- The scene-mutating steps of `swapSchematic` (renderer.ts:343-359 and
368-376): remove and dispose every `InstancedMesh`; find the mesh named
'ground' and dispose it (in Babylon, `dispose` also unlinks the mesh from
the scene; if no ground exists the source faults on `undefined`, modelled
as `none`); add a grid at the new structure's `-height / 2`; append the
newly computed fragments. -/
def swapScene (scene : Scene) (newFrags : List Mesh)
    (newHeight : Nat) : Option Scene :=
  let kept := scene.meshes.filter (fun m => !m.isInstanced)
  let removed := scene.meshes.filter (fun m => m.isInstanced)
  match kept.find? SceneMesh.isGround with
  | none => none
  | some g =>
      some { meshes := (kept.eraseP SceneMesh.isGround) ++
               [SceneMesh.ground (-(newHeight : Rat) / 2)] ++
               newFrags.map SceneMesh.instanced,
             disposedMeshes := scene.disposedMeshes ++ removed ++ [g],
             rendered := scene.rendered }

/-- The session state threaded through the handles returned by
`renderSchematic` (renderer.ts:383-407): the lookup cache, the scene, the
model loader's geometry/template cache (modelled from the spec, §4.2:
`clear()` discards it; its keys are abstract), and the `hasDestroyed` and
engine-disposal flags. -/
structure SessionState where
  lookup : List (String × BlockModelData)
  scene : Scene
  geomCache : List String
  hasDestroyed : Bool
  engineDisposed : Bool
deriving DecidableEq, Repr

/-- Embedding of `render` (renderer.ts:289-294): a no-op once
`hasDestroyed` is set, otherwise one `scene.render()` frame tick. -/
def render (s : SessionState) : SessionState :=
  if s.hasDestroyed then s
  else { s with scene := { s.scene with rendered := s.scene.rendered + 1 } }

/-- Embedding of `destroy` (renderer.ts:399-402): dispose the engine and
set `hasDestroyed`.  The lookup cache and scene are not touched. -/
def destroy (s : SessionState) : SessionState :=
  { s with engineDisposed := true, hasDestroyed := true }

/-- Embedding of `swapSchematic` (renderer.ts:337-381) at the session
level: mutate the scene via `swapScene`, reset the geometry/template cache
(`modelLoader.clearCache()`), then run `updateBlockModelLookup` and
`computeSchematicMesh` for the new structure.  The function is not guarded
by `hasDestroyed`. -/
def sessionSwap (inv nonOcc : String → Bool)
    (resolve : Block → BlockModelData)
    (getModel : Block → List (Option Mesh)) (s : SessionState)
    (newS : Structure) : Option SessionState :=
  let lookup2 := (updateBlockModelLookup inv resolve newS.blockTypes s.lookup).1
  let frags := computeSchematicMesh inv nonOcc lookup2 getModel newS
  match swapScene s.scene frags newS.height with
  | none => none
  | some sc =>
      some { lookup := lookup2, scene := sc, geomCache := [],
             hasDestroyed := s.hasDestroyed,
             engineDisposed := s.engineDisposed }

/-- An empty structure: no voxels, no block types, zero dimensions. -/
def emptyStructure : Structure where
  width := 0
  height := 0
  length := 0
  blockTypes := []
  positions := []
  getBlock := fun _ => none

/-- A concrete scene holding one old fragment, the ground, and one other
mesh. -/
def sampleScene : Scene :=
  ⟨[SceneMesh.instanced ⟨5, 0, 0, 0, true⟩, SceneMesh.ground 0,
    SceneMesh.other 1], [], 0⟩

/-- A concrete live session over `sampleScene`. -/
def sampleState : SessionState :=
  ⟨stoneLookup, sampleScene, ["template"], false, false⟩

/-- The expected session state after swapping `sampleState` to the empty
structure. -/
def swappedState : SessionState :=
  ⟨stoneLookup,
    ⟨[SceneMesh.other 1, SceneMesh.ground 0],
      [SceneMesh.instanced ⟨5, 0, 0, 0, true⟩, SceneMesh.ground 0], 0⟩,
    [], false, false⟩

/-- The expected session state after destroying `sampleState` and then
swapping to the empty structure. -/
def destroyedSwappedState : SessionState :=
  ⟨stoneLookup,
    ⟨[SceneMesh.other 1, SceneMesh.ground 0],
      [SceneMesh.instanced ⟨5, 0, 0, 0, true⟩, SceneMesh.ground 0], 0⟩,
    [], true, true⟩

/-- Setting an absent or different key leaves other lookups unchanged. -/
lemma getEntry_setEntry_ne (m : List (String × BlockModelData))
    (k k' : String) (v : BlockModelData) (hne : k' ≠ k) :
    getEntry (setEntry m k v) k' = getEntry m k' := by
  induction m with
  | nil =>
      simp only [getEntry, setEntry, List.find?]
      rw [show (k == k') = false from beq_eq_false_iff_ne.mpr (Ne.symm hne)]
  | cons kv rest ih =>
      by_cases hk : kv.1 = k
      · simp only [setEntry, if_pos hk, getEntry, List.find?]
        rw [show (k == k') = false from beq_eq_false_iff_ne.mpr (Ne.symm hne),
          show (kv.1 == k') = false from
            beq_eq_false_iff_ne.mpr (hk ▸ Ne.symm hne)]
      · simp only [setEntry, if_neg hk, getEntry, List.find?]
        cases hkk' : (kv.1 == k') with
        | true => rfl
        | false => exact ih

/-- The lookup cache is only ever grown by `updateBlockModelLookup`: an
entry present before a load is present, with the same value, afterwards.
The `get` guard (renderer.ts:114) skips every key already in the cache, and
`set` (renderer.ts:127) is only reached for keys proved absent. -/
lemma updateBlockModelLookup_monotone (inv : String → Bool)
    (resolve : Block → BlockModelData) (blocks : List Block)
    (lookup : List (String × BlockModelData)) (k : String)
    (v : BlockModelData) (h : getEntry lookup k = some v) :
    getEntry (updateBlockModelLookup inv resolve blocks lookup).1 k = some v := by
  induction blocks generalizing lookup with
  | nil => exact h
  | cons b rest ih =>
      simp only [updateBlockModelLookup]
      by_cases hinv : inv b.type
      · simpa [hinv] using ih lookup h
      · simp only [if_neg hinv]
        cases hget : getEntry lookup (hashBlockForMap b) with
        | some md => exact ih lookup h
        | none =>
            by_cases hlen : (resolve b).models.length = 0
            · simpa [hlen] using ih lookup h
            · have hne : k ≠ hashBlockForMap b := by
                intro hkb; rw [hkb, hget] at h; exact Option.noConfusion h
              simp only [if_neg hlen]
              exact ih _ (by rw [getEntry_setEntry_ne _ _ _ _ hne]; exact h)

/-- C3 counterexample: a block type whose resolution yields empty model
data is not marked in the cache, and a later load resolves it again.  With
a resolver returning empty model data, the first load performs one
resolution and leaves no cache entry, and a second load over the resulting
cache performs one further resolution — contradicting the claim that such
types are marked so a later Load does not resolve them again. -/
theorem emptyModelData_not_cached_reresolved :
    let bE : Block := ⟨"minecraft:structure_void", []⟩
    let res : Block → BlockModelData := fun _ => ⟨[]⟩
    let inv : String → Bool := fun _ => false
    (updateBlockModelLookup inv res [bE] []).2 = 1 ∧
      getEntry (updateBlockModelLookup inv res [bE] []).1
        (hashBlockForMap bE) = none ∧
      (updateBlockModelLookup inv res [bE]
        (updateBlockModelLookup inv res [bE] []).1).2 = 1 := by
  refine ⟨rfl, rfl, rfl⟩

/-- C3 amended: a key already present in the lookup cache is never
re-resolved (first conjunct: the block is skipped with no resolution
operation); but a block type whose resolution yields empty model data is
not inserted into the cache, and each later load resolves it again (second
conjunct: one extra resolution operation, no cache change). -/
theorem updateBlockModelLookup_cache_discipline (inv : String → Bool)
    (resolve : Block → BlockModelData) (b : Block) (rest : List Block)
    (lookup : List (String × BlockModelData)) :
    (∀ v, getEntry lookup (hashBlockForMap b) = some v →
        updateBlockModelLookup inv resolve (b :: rest) lookup =
          updateBlockModelLookup inv resolve rest lookup) ∧
    (getEntry lookup (hashBlockForMap b) = none → inv b.type = false →
        (resolve b).models = [] →
        updateBlockModelLookup inv resolve (b :: rest) lookup =
          ((updateBlockModelLookup inv resolve rest lookup).1,
            (updateBlockModelLookup inv resolve rest lookup).2 + 1)) := by
  constructor
  · intro v hv
    simp only [updateBlockModelLookup]
    by_cases hinv : inv b.type
    · simp [hinv]
    · simp [hinv, hv]
  · intro hnone hinv hempty
    simp [updateBlockModelLookup, hinv, hnone, hempty]

/-- Witness for C3's amended theorem at concrete inputs: a cache-hit block
is skipped entirely, and a concrete empty-model block costs one resolution
on a repeat load without entering the cache. -/
theorem updateBlockModelLookup_cache_discipline_witness :
    (updateBlockModelLookup (fun _ => false) (fun _ => ⟨[1]⟩)
        [⟨"minecraft:stone", []⟩]
        [(hashBlockForMap ⟨"minecraft:stone", []⟩, ⟨[1]⟩)] =
      updateBlockModelLookup (fun _ => false) (fun _ => ⟨[1]⟩) []
        [(hashBlockForMap ⟨"minecraft:stone", []⟩, ⟨[1]⟩)]) ∧
    (updateBlockModelLookup (fun _ => false) (fun _ => ⟨[]⟩)
        [⟨"minecraft:structure_void", []⟩] [] =
      ((updateBlockModelLookup (fun _ => false) (fun _ => ⟨[]⟩) [] []).1,
        (updateBlockModelLookup (fun _ => false) (fun _ => ⟨[]⟩) [] []).2 + 1)) :=
  ⟨(updateBlockModelLookup_cache_discipline _ _ _ _ _).1 ⟨[1]⟩ rfl,
    (updateBlockModelLookup_cache_discipline _ _ _ _ _).2 rfl rfl rfl⟩

/-- The scan flag agrees with `List.any` over the face list. -/
lemma visibilityScan_fst (s : Structure) (nonOcc : String → Bool)
    (p : Pos) (fs : List Face) :
    (visibilityScan s nonOcc p fs).1 = fs.any (exposingFace s nonOcc p) := by
  induction fs with
  | nil => rfl
  | cons f fs ih =>
      simp only [visibilityScan, List.any_cons]
      by_cases h : exposingFace s nonOcc p f
      · simp [h]
      · simp [h, ih]

/-- The scan stops at the first exposing face: faces before it are each
examined once, faces after it never. -/
lemma visibilityScan_count (s : Structure) (nonOcc : String → Bool)
    (p : Pos) (fs1 : List Face) (f : Face) (fs2 : List Face)
    (hpre : ∀ f' ∈ fs1, exposingFace s nonOcc p f' = false)
    (hf : exposingFace s nonOcc p f = true) :
    (visibilityScan s nonOcc p (fs1 ++ f :: fs2)).2 = fs1.length + 1 := by
  induction fs1 with
  | nil => simp [visibilityScan, hf]
  | cons g gs ih =>
      have hg : exposingFace s nonOcc p g = false :=
        hpre g (List.mem_cons_self g gs)
      have ih' := ih (fun f' hf' => hpre f' (List.mem_cons_of_mem g hf'))
      simp only [List.cons_append, visibilityScan, hg, Bool.false_eq_true,
        if_false, List.append_eq] at ih' ⊢
      rw [ih']
      simp [List.length_cons]

/-- When out-of-bounds neighbors carry no block, the code's face test
coincides with the spec's three-way "exposing" characterization. -/
lemma exposingFace_iff_spec (s : Structure) (nonOcc : String → Bool)
    (p : Pos) (f : Face)
    (hoob : ∀ q : Pos, inBounds s q = false → s.getBlock q = none) :
    exposingFace s nonOcc p f = true ↔ exposingSpec s nonOcc p f := by
  unfold exposingFace exposingSpec
  cases hq : s.getBlock (p.add (faceToFacingVector f)) with
  | none => simp
  | some ob =>
      constructor
      · intro h
        refine Or.inr (Or.inr ⟨ob, rfl, ?_⟩)
        exact h
      · intro h
        show nonOcc ob.type = true
        rcases h with h | h | ⟨ob', hob', hno⟩
        · rw [hoob _ h] at hq; exact Option.noConfusion hq
        · exact Option.noConfusion h
        · injection hob' with hh
          rw [hh]
          exact hno

/-- C4: for a voxel holding a non-invisible block with resolved model
data, geometry is produced iff some face is exposing (neighbor out of
bounds, empty, or non-occluding), and the per-voxel scan stops at the
first exposing face. -/
theorem voxel_culling (inv nonOcc : String → Bool)
    (lookup : List (String × BlockModelData))
    (getModel : Block → List (Option Mesh)) (s : Structure) (p : Pos)
    (block : Block) (md : BlockModelData) (xT yT zT : Rat)
    (hb : s.getBlock p = some block) (hinv : inv block.type = false)
    (hmd : getEntry lookup (hashBlockForMap block) = some md)
    (hoob : ∀ q : Pos, inBounds s q = false → s.getBlock q = none) :
    (voxelMeshes inv nonOcc lookup getModel s xT yT zT p =
        if anyVisible s nonOcc p then
          ((getModel block).filterMap id).map (placeMesh xT yT zT p)
        else []) ∧
    (anyVisible s nonOcc p = true ↔
        ∃ f ∈ POSSIBLE_FACES, exposingSpec s nonOcc p f) ∧
    (∀ fs1 f fs2, POSSIBLE_FACES = fs1 ++ f :: fs2 →
        (∀ f' ∈ fs1, exposingFace s nonOcc p f' = false) →
        exposingFace s nonOcc p f = true →
        (visibilityScan s nonOcc p POSSIBLE_FACES).2 = fs1.length + 1) := by
  refine ⟨?_, ?_, ?_⟩
  · simp only [voxelMeshes, hb]
    simp [hinv, hmd]
  · rw [anyVisible, visibilityScan_fst, List.any_eq_true]
    constructor
    · rintro ⟨f, hfmem, hfexp⟩
      exact ⟨f, hfmem, (exposingFace_iff_spec s nonOcc p f hoob).mp hfexp⟩
    · rintro ⟨f, hfmem, hfspec⟩
      exact ⟨f, hfmem, (exposingFace_iff_spec s nonOcc p f hoob).mpr hfspec⟩
  · intro fs1 f fs2 hsplit hpre hf
    rw [hsplit]
    exact visibilityScan_count s nonOcc p fs1 f fs2 hpre hf

/-- Witness for C4 at the concrete 1×1×1 structure: every hypothesis is
discharged at it, and the culling equation and exposure characterization
hold there. -/
theorem voxel_culling_witness :
    (voxelMeshes (fun _ => false) (fun _ => false) stoneLookup stoneModel
        oneVoxelStructure 0 0 0 ⟨0, 0, 0⟩ =
      if anyVisible oneVoxelStructure (fun _ => false) ⟨0, 0, 0⟩ then
        ((stoneModel stoneBlock).filterMap id).map (placeMesh 0 0 0 ⟨0, 0, 0⟩)
      else []) ∧
    anyVisible oneVoxelStructure (fun _ => false) ⟨0, 0, 0⟩ = true := by
  have hoob : ∀ q : Pos, inBounds oneVoxelStructure q = false →
      oneVoxelStructure.getBlock q = none := by
    intro q hq
    by_cases h0 : q = ⟨0, 0, 0⟩
    · subst h0; exact absurd hq (by decide)
    · simp [oneVoxelStructure, h0]
  have h := voxel_culling (fun _ => false) (fun _ => false) stoneLookup
    stoneModel oneVoxelStructure ⟨0, 0, 0⟩ stoneBlock ⟨[0]⟩ 0 0 0
    (by decide) rfl (by decide) hoob
  refine ⟨h.1, h.2.1.mpr ⟨Face.up, by decide, Or.inr (Or.inl (by decide))⟩⟩

/-- C6: each fragment of the voxel at (x, y, z) is translated by
−width/2 + 0.5 + x on the x axis, −height/2 + 0.5 + y on y, and
−length/2 + 0.5 + z on z (and its transform is then frozen); the whole
mesh applies this voxel by voxel in iteration order. -/
theorem fragment_placement (inv nonOcc : String → Bool)
    (lookup : List (String × BlockModelData))
    (getModel : Block → List (Option Mesh)) (s : Structure) (p : Pos)
    (block : Block) (md : BlockModelData)
    (hb : s.getBlock p = some block) (hinv : inv block.type = false)
    (hmd : getEntry lookup (hashBlockForMap block) = some md)
    (hvis : anyVisible s nonOcc p = true) :
    computeSchematicMesh inv nonOcc lookup getModel s =
      (s.positions.map (voxelMeshes inv nonOcc lookup getModel s
        (-(s.width : Rat) / 2 + 1/2) (-(s.height : Rat) / 2 + 1/2)
        (-(s.length : Rat) / 2 + 1/2))).flatten ∧
    voxelMeshes inv nonOcc lookup getModel s
        (-(s.width : Rat) / 2 + 1/2) (-(s.height : Rat) / 2 + 1/2)
        (-(s.length : Rat) / 2 + 1/2) p =
      ((getModel block).filterMap id).map (fun m =>
        { m with
          x := m.x + (-(s.width : Rat) / 2 + 1/2 + p.x),
          y := m.y + (-(s.height : Rat) / 2 + 1/2 + p.y),
          z := m.z + (-(s.length : Rat) / 2 + 1/2 + p.z),
          frozen := true }) := by
  refine ⟨rfl, ?_⟩
  simp only [voxelMeshes, hb]
  simp [hinv, hmd, hvis, placeMesh]

/-- Witness for C6, the spec's concrete case: width 2, height 1, length 1,
blocks at (0,0,0) and (1,0,0); a base mesh at the model origin lands at
world x = −0.5 and x = 0.5 respectively. -/
theorem fragment_placement_witness :
    voxelMeshes (fun _ => false) (fun _ => false) stoneLookup stoneModel
        rowStructure (-(rowStructure.width : Rat) / 2 + 1/2)
        (-(rowStructure.height : Rat) / 2 + 1/2)
        (-(rowStructure.length : Rat) / 2 + 1/2) ⟨0, 0, 0⟩ =
      [⟨0, -(1/2 : Rat), 0, 0, true⟩] ∧
    voxelMeshes (fun _ => false) (fun _ => false) stoneLookup stoneModel
        rowStructure (-(rowStructure.width : Rat) / 2 + 1/2)
        (-(rowStructure.height : Rat) / 2 + 1/2)
        (-(rowStructure.length : Rat) / 2 + 1/2) ⟨1, 0, 0⟩ =
      [⟨0, 1/2, 0, 0, true⟩] := by
  constructor
  · exact ((fragment_placement (fun _ => false) (fun _ => false) stoneLookup
      stoneModel rowStructure ⟨0, 0, 0⟩ stoneBlock ⟨[0]⟩
      (by decide) rfl (by decide) (by decide)).2).trans
      (by norm_num [stoneModel, rowStructure, List.filterMap_cons])
  · exact ((fragment_placement (fun _ => false) (fun _ => false) stoneLookup
      stoneModel rowStructure ⟨1, 0, 0⟩ stoneBlock ⟨[0]⟩
      (by decide) rfl (by decide) (by decide)).2).trans
      (by norm_num [stoneModel, rowStructure, List.filterMap_cons])

/-- The blob scan implements first-defined-wins exactly. -/
lemma scanBlob_eq_firstHit (zips : List Archive) (name : String) :
    scanBlob zips name none = firstHit zips name := by
  induction zips with
  | nil => rfl
  | cons z rest ih =>
      simp only [scanBlob, firstHit]
      cases hz : zipFileEntry z name with
      | some e => simp
      | none => simpa using ih

/-- The text scan returns the first truthy (non-empty) entry, whatever the
incoming `data` value. -/
lemma scanText_first_truthy (pre : List Archive) (z : Archive)
    (rest : List Archive) (name : String) (data : Option String)
    (hpre : ∀ a ∈ pre, truthyText (zipFileEntry a name) = false)
    (hz : truthyText (zipFileEntry z name) = true) :
    scanText (pre ++ z :: rest) name data = zipFileEntry z name := by
  induction pre generalizing data with
  | nil => simp [scanText, hz]
  | cons a as ih =>
      have ha : truthyText (zipFileEntry a name) = false :=
        hpre a (List.mem_cons_self a as)
      simp only [List.cons_append, scanText, ha, Bool.false_eq_true, if_false]
      exact ih _ (fun a' ha' => hpre a' (List.mem_cons_of_mem a ha'))

/-- C5 counterexample: with a primary archive defining the path as the
empty string and an overlay defining it as "x", `getText` returns the
overlay's entry, not the entry of the first archive that defines the path
— the later archive overrides the earlier one. -/
theorem getResourceString_empty_entry_overridden :
    let a1 : Archive := ⟨[("models/block/p.json", "")]⟩
    let a2 : Archive := ⟨[("models/block/p.json", "x")]⟩
    zipFileEntry a1 "models/block/p.json" = some "" ∧
      (getResourceString [a1, a2] [] "models/block/p.json").1 = some "x" ∧
      (getResourceString [a1, a2] [] "models/block/p.json").1 ≠
        firstHit [a1, a2] "models/block/p.json" := by
  refine ⟨rfl, rfl, by decide⟩

/-- C5 amended: `getBlob` returns the entry of the first archive that
defines the path; `getText` returns the entry of the first archive whose
entry is a non-empty string — an archive whose entry decodes to the empty
string is skipped as if absent, so a later archive's non-empty entry can
override an earlier empty one. -/
theorem resource_precedence (zips : List Archive)
    (cache : List (String × Option String)) (name : String)
    (hc : cache.find? (fun kv => kv.1 == name) = none) :
    (getResourceBlob zips cache name).1 = firstHit zips name ∧
    (∀ pre z rest, zips = pre ++ z :: rest →
        (∀ a ∈ pre, truthyText (zipFileEntry a name) = false) →
        truthyText (zipFileEntry z name) = true →
        (getResourceString zips cache name).1 = zipFileEntry z name) := by
  constructor
  · simp only [getResourceBlob, hc]
    rw [scanBlob_eq_firstHit]
    cases firstHit zips name <;> rfl
  · intro pre z rest hsplit hpre hz
    simp only [getResourceString, hc]
    rw [hsplit]
    exact scanText_first_truthy pre z rest name none hpre hz

/-- Witness for C5's amended theorem on concrete archives: the blob view
takes the primary's (empty) entry, while the text view skips it and
returns the overlay's non-empty entry. -/
theorem resource_precedence_witness :
    (getResourceBlob [⟨[("models/block/p.json", "")]⟩,
        ⟨[("models/block/p.json", "x")]⟩] [] "models/block/p.json").1 =
      firstHit [⟨[("models/block/p.json", "")]⟩,
        ⟨[("models/block/p.json", "x")]⟩] "models/block/p.json" ∧
    (getResourceString [⟨[("models/block/p.json", "")]⟩,
        ⟨[("models/block/p.json", "x")]⟩] [] "models/block/p.json").1 =
      zipFileEntry ⟨[("models/block/p.json", "x")]⟩ "models/block/p.json" := by
  have h := resource_precedence [⟨[("models/block/p.json", "")]⟩,
    ⟨[("models/block/p.json", "x")]⟩] [] "models/block/p.json" rfl
  exact ⟨h.1, h.2 [⟨[("models/block/p.json", "")]⟩]
    ⟨[("models/block/p.json", "x")]⟩ [] rfl (by decide) (by decide)⟩

/-- Elements of a `setEntry` result are the new pair or old entries. -/
lemma mem_setEntry (m : List (String × BlockModelData)) (k : String)
    (v : BlockModelData) (kv : String × BlockModelData)
    (h : kv ∈ setEntry m k v) : kv = (k, v) ∨ kv ∈ m := by
  induction m with
  | nil => simpa [setEntry] using h
  | cons kv0 rest ih =>
      by_cases hk : kv0.1 = k
      · simp only [setEntry, if_pos hk] at h
        rcases List.mem_cons.mp h with h | h
        · exact Or.inl h
        · exact Or.inr (List.mem_cons_of_mem kv0 h)
      · simp only [setEntry, if_neg hk] at h
        rcases List.mem_cons.mp h with h | h
        · exact Or.inr (h ▸ List.mem_cons_self kv0 rest)
        · rcases ih h with h | h
          · exact Or.inl h
          · exact Or.inr (List.mem_cons_of_mem kv0 h)

/-- C2: after `swap(newStructure)` completes, the instanced fragments in
the scene are exactly the geometry computed for the new structure under
the updated lookup cache, and every fragment of the previously displayed
structure has been removed from the scene and disposed (hypotheses: the
swap completed, and the new fragments are fresh objects, distinct from
every old scene mesh). -/
theorem swap_replaces_fragments (inv nonOcc : String → Bool)
    (resolve : Block → BlockModelData)
    (getModel : Block → List (Option Mesh)) (s s' : SessionState)
    (newS : Structure)
    (hswap : sessionSwap inv nonOcc resolve getModel s newS = some s')
    (hfresh : ∀ m ∈ s.scene.meshes, m.isInstanced = true →
        m ∉ (computeSchematicMesh inv nonOcc
          (updateBlockModelLookup inv resolve newS.blockTypes s.lookup).1
          getModel newS).map SceneMesh.instanced) :
    s'.scene.meshes.filter (fun m => m.isInstanced) =
      (computeSchematicMesh inv nonOcc
        (updateBlockModelLookup inv resolve newS.blockTypes s.lookup).1
        getModel newS).map SceneMesh.instanced ∧
    (∀ m ∈ s.scene.meshes, m.isInstanced = true →
      m ∈ s'.scene.disposedMeshes ∧ m ∉ s'.scene.meshes) := by
  simp only [sessionSwap] at hswap
  set frags := computeSchematicMesh inv nonOcc
    (updateBlockModelLookup inv resolve newS.blockTypes s.lookup).1
    getModel newS with hfragsdef
  cases hsc : swapScene s.scene frags newS.height with
  | none => rw [hsc] at hswap; exact Option.noConfusion hswap
  | some sc =>
      rw [hsc] at hswap
      injection hswap with hs'
      subst hs'
      simp only [swapScene] at hsc
      cases hg : (s.scene.meshes.filter
          (fun m => !m.isInstanced)).find? SceneMesh.isGround with
      | none => rw [hg] at hsc; exact Option.noConfusion hsc
      | some g =>
          rw [hg] at hsc
          injection hsc with hscene
          have hkept : ∀ m ∈ (s.scene.meshes.filter
              (fun m => !m.isInstanced)).eraseP SceneMesh.isGround,
              m.isInstanced = false := by
            intro m hm
            have hsub := List.eraseP_sublist
              (l := s.scene.meshes.filter (fun m => !m.isInstanced))
              (p := SceneMesh.isGround)
            have hmem := hsub.mem hm
            have := List.of_mem_filter hmem
            simpa using this
          constructor
          · rw [← hscene]
            simp only [List.filter_append]
            rw [List.filter_eq_nil_iff.mpr
              (fun m hm => by simp [hkept m hm]),
              show ([SceneMesh.ground (-(newS.height : Rat) / 2)].filter
                (fun m => m.isInstanced)) = [] from rfl,
              List.filter_eq_self.mpr ?_]
            · simp
            · intro m hm
              rcases List.mem_map.mp hm with ⟨m0, _, rfl⟩
              rfl
          · intro m hm hinst
            constructor
            · rw [← hscene]
              simp only [List.mem_append]
              exact Or.inl (Or.inr (List.mem_filter.mpr ⟨hm, hinst⟩))
            · rw [← hscene]
              intro hmem
              simp only [List.mem_append] at hmem
              rcases hmem with (hmem | hmem) | hmem
              · have := hkept m hmem
                rw [hinst] at this
                exact Bool.noConfusion this
              · rcases List.mem_singleton.mp hmem with rfl
                exact Bool.noConfusion hinst
              · exact hfresh m hm hinst hmem

/-- Witness for C2: swapping the concrete live session to the empty
structure leaves no instanced fragment in the scene (the new structure
contributes none), matching the empty computed mesh set. -/
theorem swap_replaces_fragments_witness :
    swappedState.scene.meshes.filter (fun m => m.isInstanced) =
      (computeSchematicMesh (fun _ => false) (fun _ => false)
        (updateBlockModelLookup (fun _ => false) (fun _ => ⟨[]⟩)
          emptyStructure.blockTypes sampleState.lookup).1
        (fun _ => []) emptyStructure).map SceneMesh.instanced := by
  refine (swap_replaces_fragments (fun _ => false) (fun _ => false)
    (fun _ => ⟨[]⟩) (fun _ => []) sampleState swappedState emptyStructure
    ?_ ?_).1
  · norm_num [sessionSwap, swapScene, updateBlockModelLookup,
      computeSchematicMesh, sampleState, sampleScene, emptyStructure,
      swappedState, List.filter, List.find?, List.eraseP, SceneMesh.isGround,
      SceneMesh.isInstanced]
  · intro m hm hinst
    simp [computeSchematicMesh, emptyStructure]

/-- C7: the resolver lookup cache is only ever grown: a load preserves
every existing entry unchanged; a completed swap preserves every entry of
the pre-swap cache while resetting only the geometry/template cache; and
destroy leaves the cache untouched. -/
theorem lookup_cache_only_grows (inv nonOcc : String → Bool)
    (resolve : Block → BlockModelData)
    (getModel : Block → List (Option Mesh)) (blocks : List Block)
    (lookup : List (String × BlockModelData)) (s s' : SessionState)
    (newS : Structure) (k : String) (v : BlockModelData)
    (hswap : sessionSwap inv nonOcc resolve getModel s newS = some s') :
    (getEntry lookup k = some v →
      getEntry (updateBlockModelLookup inv resolve blocks lookup).1 k =
        some v) ∧
    (getEntry s.lookup k = some v → getEntry s'.lookup k = some v) ∧
    s'.geomCache = [] ∧
    (destroy s).lookup = s.lookup := by
  simp only [sessionSwap] at hswap
  cases hsc : swapScene s.scene (computeSchematicMesh inv nonOcc
      (updateBlockModelLookup inv resolve newS.blockTypes s.lookup).1
      getModel newS) newS.height with
  | none => rw [hsc] at hswap; exact Option.noConfusion hswap
  | some sc =>
      rw [hsc] at hswap
      injection hswap with hs'
      subst hs'
      exact ⟨fun h => updateBlockModelLookup_monotone inv resolve blocks
          lookup k v h,
        fun h => updateBlockModelLookup_monotone inv resolve newS.blockTypes
          s.lookup k v h, rfl, rfl⟩

/-- Witness for C7: after the concrete swap, the stone entry inserted
before the swap is still present and the geometry cache is reset. -/
theorem lookup_cache_only_grows_witness :
    getEntry swappedState.lookup (hashBlockForMap stoneBlock) =
      some ⟨[0]⟩ ∧ swappedState.geomCache = [] := by
  have hswap : sessionSwap (fun _ => false) (fun _ => false)
      (fun _ => ⟨[]⟩) (fun _ => []) sampleState emptyStructure =
      some swappedState := by
    norm_num [sessionSwap, swapScene, updateBlockModelLookup,
      computeSchematicMesh, sampleState, sampleScene, emptyStructure,
      swappedState, List.filter, List.find?, List.eraseP,
      SceneMesh.isGround, SceneMesh.isInstanced]
  have h := lookup_cache_only_grows (fun _ => false) (fun _ => false)
    (fun _ => ⟨[]⟩) (fun _ => []) [] stoneLookup sampleState swappedState
    emptyStructure (hashBlockForMap stoneBlock) ⟨[0]⟩ hswap
  exact ⟨h.2.1 (by decide), h.2.2.1⟩

/-- C8 amended: after destroy, render() is a no-op: the `hasDestroyed`
guard returns before touching the scene or the engine, so the state is
returned unchanged and no fault is raised. -/
theorem render_after_destroy_noop (s : SessionState)
    (h : s.hasDestroyed = true) : render s = s := by
  simp [render, h]

/-- Witness for C8's amended theorem: rendering a destroyed concrete
session returns it unchanged. -/
theorem render_after_destroy_noop_witness :
    render (destroy sampleState) = destroy sampleState :=
  render_after_destroy_noop (destroy sampleState) rfl

/-- C8 counterexample: the claim extends the post-dispose no-op guarantee
to the add and remove operations, but only `render` checks `hasDestroyed`:
a swap issued after destroy still removes and disposes the old fragment
and adds a new grid, so the scene changes — the mesh add/remove operations
are not no-ops after dispose. -/
theorem swap_after_destroy_mutates :
    sessionSwap (fun _ => false) (fun _ => false) (fun _ => ⟨[]⟩)
        (fun _ => []) (destroy sampleState) emptyStructure =
      some destroyedSwappedState ∧
    (destroy sampleState).hasDestroyed = true ∧
    destroyedSwappedState.scene ≠ (destroy sampleState).scene := by
  refine ⟨?_, rfl, by decide⟩
  norm_num [sessionSwap, swapScene, updateBlockModelLookup,
    computeSchematicMesh, sampleState, sampleScene, emptyStructure,
    destroyedSwappedState, destroy, List.filter, List.find?, List.eraseP,
    SceneMesh.isGround, SceneMesh.isInstanced]

/-- A load step keeps every stored model list non-empty: insertions are
guarded by `if (!blockModelData.models.length) continue`. -/
lemma updateBlockModelLookup_values_nonempty (inv : String → Bool)
    (resolve : Block → BlockModelData) (blocks : List Block)
    (lookup : List (String × BlockModelData))
    (hnonempty : ∀ kv ∈ lookup, kv.2.models ≠ []) :
    ∀ kv ∈ (updateBlockModelLookup inv resolve blocks lookup).1,
      kv.2.models ≠ [] := by
  induction blocks generalizing lookup with
  | nil => exact hnonempty
  | cons b rest ih =>
      simp only [updateBlockModelLookup]
      by_cases hbinv : inv b.type
      · simpa [hbinv] using ih lookup hnonempty
      · simp only [if_neg hbinv]
        cases hget : getEntry lookup (hashBlockForMap b) with
        | some md => exact ih lookup hnonempty
        | none =>
            by_cases hlen : (resolve b).models.length = 0
            · simpa [hlen] using ih lookup hnonempty
            · simp only [if_neg hlen]
              refine ih _ ?_
              intro kv hkv
              rcases mem_setEntry _ _ _ kv hkv with h | h
              · rw [h]
                intro he
                have he2 : (resolve b).models = [] := he
                simp [he2] at hlen
              · exact hnonempty kv h

/-- A key absent from the cache whose blocks all resolve to empty model
data is still absent after a load. -/
lemma updateBlockModelLookup_absent (inv : String → Bool)
    (resolve : Block → BlockModelData) (blocks : List Block)
    (lookup : List (String × BlockModelData)) (k : String)
    (hnone : getEntry lookup k = none)
    (hempty : ∀ b ∈ blocks, hashBlockForMap b = k →
      (resolve b).models = []) :
    getEntry (updateBlockModelLookup inv resolve blocks lookup).1 k =
      none := by
  induction blocks generalizing lookup with
  | nil => exact hnone
  | cons b rest ih =>
      have hrest : ∀ b' ∈ rest, hashBlockForMap b' = k →
          (resolve b').models = [] :=
        fun b' hb' => hempty b' (List.mem_cons_of_mem b hb')
      simp only [updateBlockModelLookup]
      by_cases hbinv : inv b.type
      · simpa [hbinv] using ih lookup hnone hrest
      · simp only [if_neg hbinv]
        cases hget : getEntry lookup (hashBlockForMap b) with
        | some md => exact ih lookup hnone hrest
        | none =>
            by_cases hlen : (resolve b).models.length = 0
            · simpa [hlen] using ih lookup hnone hrest
            · have hkne : k ≠ hashBlockForMap b := by
                intro hk
                exact hlen (by
                  rw [hempty b (List.mem_cons_self b rest) hk.symm]; rfl)
              simp only [if_neg hlen]
              exact ih _
                (by rw [getEntry_setEntry_ne _ _ _ _ hkne]; exact hnone) hrest

/-- C10: every lookup-cache entry maps to a non-empty model list; a key
whose blocks all resolve to empty model data is represented only by the
absence of an entry; and assembly silently skips any voxel whose key is
absent from the cache (its contribution is the empty fragment list, with
no fault). -/
theorem lookup_nonempty_invariant_and_skip (inv nonOcc : String → Bool)
    (resolve : Block → BlockModelData)
    (getModel : Block → List (Option Mesh)) (blocks : List Block)
    (lookup : List (String × BlockModelData)) (s : Structure) (p : Pos)
    (k : String) (xT yT zT : Rat) :
    ((∀ kv ∈ lookup, kv.2.models ≠ []) →
      ∀ kv ∈ (updateBlockModelLookup inv resolve blocks lookup).1,
        kv.2.models ≠ []) ∧
    (getEntry lookup k = none →
      (∀ b ∈ blocks, hashBlockForMap b = k → (resolve b).models = []) →
      getEntry (updateBlockModelLookup inv resolve blocks lookup).1 k =
        none) ∧
    (∀ block, s.getBlock p = some block →
      getEntry lookup (hashBlockForMap block) = none →
      voxelMeshes inv nonOcc lookup getModel s xT yT zT p = []) := by
  refine ⟨fun h => updateBlockModelLookup_values_nonempty inv resolve
      blocks lookup h,
    fun h1 h2 => updateBlockModelLookup_absent inv resolve blocks lookup
      k h1 h2, ?_⟩
  intro block hb hnone
  simp only [voxelMeshes, hb]
  by_cases hbinv : inv block.type <;> simp [hbinv, hnone]

/-- Witness for C10: a block type resolving to empty model data stays
absent from the concrete cache after a load over it, and the assembly
contribution of a voxel whose key is missing from an empty cache is the
empty fragment list. -/
theorem lookup_nonempty_invariant_and_skip_witness :
    getEntry (updateBlockModelLookup (fun _ => false) (fun _ => ⟨[]⟩)
        [⟨"minecraft:water", []⟩] stoneLookup).1
      (hashBlockForMap ⟨"minecraft:water", []⟩) = none ∧
    voxelMeshes (fun _ => false) (fun _ => false) [] stoneModel
      oneVoxelStructure 0 0 0 ⟨0, 0, 0⟩ = [] := by
  have h1 := lookup_nonempty_invariant_and_skip (fun _ => false)
    (fun _ => false) (fun _ => ⟨[]⟩) stoneModel [⟨"minecraft:water", []⟩]
    stoneLookup oneVoxelStructure ⟨0, 0, 0⟩
    (hashBlockForMap ⟨"minecraft:water", []⟩) 0 0 0
  have h2 := lookup_nonempty_invariant_and_skip (fun _ => false)
    (fun _ => false) (fun _ => ⟨[]⟩) stoneModel []
    ([] : List (String × BlockModelData)) oneVoxelStructure ⟨0, 0, 0⟩
    "" 0 0 0
  exact ⟨h1.2.1 (by decide) (fun b hb hk => rfl),
    h2.2.2 stoneBlock (by decide) rfl⟩

/-- C1: For every two Blocks with the same type identifier and the same
property-name-to-value mapping, the resolver-cache key computed for them is
equal, regardless of the order in which the properties were inserted.
The code violates this: `JSON.stringify` serializes properties in insertion
order, so the two blocks below carry the same property mapping (the lists
are permutations of one another, with distinct keys) yet hash to different
cache keys. -/
theorem hashBlockForMap_order_dependent :
    let b1 : Block := ⟨"minecraft:note_block", [("instrument", "harp"), ("note", "0")]⟩
    let b2 : Block := ⟨"minecraft:note_block", [("note", "0"), ("instrument", "harp")]⟩
    b1.type = b2.type ∧ b1.properties.Perm b2.properties ∧
      hashBlockForMap b1 ≠ hashBlockForMap b2 :=
  ⟨rfl, List.Perm.swap _ _ _, by decide⟩

end SchematicViewer
